import Mathlib

/-!
Verification development for the game-result extraction core of the
Pounding-The-Rock blog server (`src/pounding_the_rock.py`).

The Python core works on plain strings (HTML stripping is performed by an
excluded collaborator and is modelled as the identity on the already-plain
text stored in the articles).  Regular-expression matching is embedded by a
small backtracking matcher (`reMatch` / `reSearch`) whose semantics follows
Python's `re.search` for the constructs the four score patterns, the location
patterns and the fallback patterns use: ordered alternation, greedy
quantifiers over character classes, non-capturing literal tokens and numbered
capture groups, all case-insensitive (every `re.search` in the source passes
`re.IGNORECASE`).  Character classes use the ASCII readings of `\w`, `\d`,
`\s`, which agree with Python on the texts the claims are about.
-/

namespace PTR

/-- Python `str.lower()` on a character (ASCII case folding, which is what the
case-insensitive matching in the source exercises). -/
def lowCh (c : Char) : Char := c.toLower

/-- Python `str.lower()` on a text given as a character list. -/
def lowerL (text : List Char) : List Char := text.map lowCh

/-- Exact prefix test on character lists. -/
def isPrefOf : List Char → List Char → Bool
  | [], _ => true
  | _ :: _, [] => false
  | a :: as, b :: bs => a == b && isPrefOf as bs

/-- Python `needle in hay` (contiguous substring test). -/
def containsSub (needle : List Char) : List Char → Bool
  | [] => needle.isEmpty
  | hay@(_ :: rest) => isPrefOf needle hay || containsSub needle rest

/-- Python `needle in text.lower()` where `needle` is already lower-case
(the indicator phrases and keyword lists in the source are lower-case
literals). -/
def lmemLower (needle : String) (text : List Char) : Bool :=
  containsSub needle.toList (lowerL text)

/-- Python `name.lower() in text.lower()` for an arbitrary-case `name`. -/
def lmem (name : String) (text : List Char) : Bool :=
  containsSub (lowerL name.toList) (lowerL text)

/-- Python `str.strip()` (whitespace trimmed from both ends). -/
def stripChars (l : List Char) : List Char :=
  ((l.dropWhile Char.isWhitespace).reverse.dropWhile Char.isWhitespace).reverse

/-- Digits-to-number accumulator used by `pyInt`. -/
def digitsToNat (l : List Char) : Nat :=
  l.foldl (fun n c => n * 10 + (c.toNat - '0'.toNat)) 0

/-- Python `int(s)` on a captured group: succeeds exactly on a non-empty
all-digit string; `none` models the `ValueError` that would otherwise be
raised. -/
def pyInt (l : List Char) : Option Nat :=
  if !l.isEmpty && l.all Char.isDigit then some (digitsToNat l) else none

/-- Non-overlapping occurrence counting, worker: Python `str.count` for a
non-empty needle. -/
def countOccsGo (needle : List Char) (hay : List Char) : Nat :=
  match hay with
  | [] => 0
  | c :: rest =>
    if isPrefOf needle (c :: rest) then
      1 + countOccsGo needle (rest.drop (needle.length - 1))
    else
      countOccsGo needle rest
termination_by hay.length
decreasing_by
  · simp only [List.length_cons, List.length_drop]; omega
  · simp only [List.length_cons]; omega

/-- Python `hay.count(needle)`; only called with non-empty needles in the
source, the empty-needle convention is Python's `len(hay) + 1`. -/
def countOccs (needle : List Char) (hay : List Char) : Nat :=
  if needle.isEmpty then hay.length + 1 else countOccsGo needle hay

/-- Python truthiness of an optional string (`None` and `""` are falsy). -/
def pyTruthy (o : Option String) : Bool :=
  match o with
  | some s => s ≠ ""
  | none => false

/-- Python `x if x else d` for an optional string. -/
def pyOrElse (o : Option String) (d : String) : String :=
  match o with
  | some s => if s = "" then d else s
  | none => d

/-- Python f-string rendering of an optional string (`None` prints as
"None"). -/
def pyShow (o : Option String) : String :=
  match o with
  | some s => s
  | none => "None"

/-! ## The regular-expression engine -/

/-- The character classes used by the patterns of the source. -/
inductive CClass where
  | digit       -- `\d`
  | word        -- `\w`
  | space       -- `\s`
  | commaSpace  -- `[,\s]`
  | nonDigit    -- `[^0-9]`
  | dash        -- `[-–]`
  deriving DecidableEq

/-- Membership of a character in a class (ASCII readings). -/
def cmatch : CClass → Char → Bool
  | .digit, c => c.isDigit
  | .word, c => c.isAlphanum || c == '_'
  | .space, c => c.isWhitespace
  | .commaSpace, c => c == ',' || c.isWhitespace
  | .nonDigit, c => !c.isDigit
  | .dash, c => c == '-' || c == '–'

/-- The regular-expression fragment language of the source's patterns:
ordered alternation, greedy `+`/`*` over character classes, greedy `?`,
case-insensitive literals and numbered capture groups. -/
inductive RE where
  | eps
  | cls (p : CClass)
  | lit (s : String)
  | cat (a b : RE)
  | alt (a b : RE)
  | opt (r : RE)
  | plusC (p : CClass)
  | starC (p : CClass)
  | group (i : Nat) (r : RE)
  deriving DecidableEq

/-- Case-insensitive character equality. -/
def ciEq (a b : Char) : Bool := lowCh a == lowCh b

/-- Match a literal (case-insensitively) against the front of the input,
returning the rest on success. -/
def dropLit : List Char → List Char → Option (List Char)
  | [], s => some s
  | _ :: _, [] => none
  | p :: ps, c :: cs => if ciEq p c then dropLit ps cs else none

/-- Capture environment: group index paired with the captured characters,
most recent first. -/
abbrev Caps := List (Nat × List Char)

/-- First (most recent) capture recorded for a group index. -/
def lookupCap (i : Nat) : Caps → Option (List Char)
  | [] => none
  | (j, v) :: rest => if j = i then some v else lookupCap i rest

/-- Python truthiness of `match.group(i)`: the group participated and
captured a non-empty string. -/
def capTruthy (i : Nat) (caps : Caps) : Bool :=
  match lookupCap i caps with
  | some v => !v.isEmpty
  | none => false

/-- Greedy backtracking over a character class with at least one repetition:
try consuming `n` characters first, then fewer, never zero. -/
def tryDownPos (s : List Char) (caps : Caps) (k : List Char → Caps → Option Caps) :
    Nat → Option Caps
  | 0 => none
  | n + 1 =>
    match k (s.drop (n + 1)) caps with
    | some r => some r
    | none => tryDownPos s caps k n

/-- Greedy backtracking over a character class with zero or more
repetitions: try consuming `n` characters first, down to zero. -/
def tryDown (s : List Char) (caps : Caps) (k : List Char → Caps → Option Caps) :
    Nat → Option Caps
  | 0 => k s caps
  | n + 1 =>
    match k (s.drop (n + 1)) caps with
    | some r => some r
    | none => tryDown s caps k n

/-- Backtracking matcher in continuation-passing style, anchored at the
start of `s`.  Alternatives are tried left-to-right and quantifiers
greedily, matching Python's `re` semantics for these constructs. -/
def reMatch : RE → List Char → Caps → (List Char → Caps → Option Caps) → Option Caps
  | .eps, s, caps, k => k s caps
  | .cls _, [], _, _ => none
  | .cls p, c :: rest, caps, k => if cmatch p c then k rest caps else none
  | .lit str, s, caps, k =>
    match dropLit str.toList s with
    | some rest => k rest caps
    | none => none
  | .cat a b, s, caps, k => reMatch a s caps (fun s1 c1 => reMatch b s1 c1 k)
  | .alt a b, s, caps, k =>
    match reMatch a s caps k with
    | some r => some r
    | none => reMatch b s caps k
  | .opt r, s, caps, k =>
    match reMatch r s caps k with
    | some r' => some r'
    | none => k s caps
  | .plusC p, s, caps, k => tryDownPos s caps k (s.takeWhile (cmatch p)).length
  | .starC p, s, caps, k => tryDown s caps k (s.takeWhile (cmatch p)).length
  | .group i r, s, caps, k =>
    reMatch r s caps (fun s1 c1 => k s1 ((i, s.take (s.length - s1.length)) :: c1))

/-- Python `re.search`: try to match at every start position, leftmost
first, returning the captures of the first successful match. -/
def reSearch (r : RE) : List Char → Option Caps
  | [] => reMatch r [] [] (fun _ c => some c)
  | s@(_ :: rest) =>
    match reMatch r s [] (fun _ c => some c) with
    | some c => some c
    | none => reSearch r rest

/-- Right-nested concatenation of a pattern list. -/
def catL (l : List RE) : RE := l.foldr RE.cat RE.eps

/-! ## Team registry (`nba_teams`, `team_cities`) and the normalizer -/

/-- The `nba_teams` list of the source, in source order (alphabetical). -/
def nba_teams : List String :=
  ["76ers", "Bucks", "Bulls", "Cavaliers", "Celtics", "Clippers", "Grizzlies",
   "Hawks", "Heat", "Hornets", "Jazz", "Kings", "Knicks", "Lakers", "Magic",
   "Mavericks", "Nets", "Nuggets", "Pacers", "Pelicans", "Pistons", "Raptors",
   "Rockets", "Spurs", "Suns", "Thunder", "Timberwolves", "Trail Blazers",
   "Warriors", "Wizards"]

/-- A `team_cities` dictionary value: a single team, or (for Los Angeles) a
non-empty list of teams, `isinstance(team, list)` distinguishing the two. -/
inductive CityEntry where
  | single (team : String)
  | multi (first : String) (rest : List String)
  deriving DecidableEq

/-- The `team_cities` mapping of the source, in dictionary insertion order. -/
def team_cities : List (String × CityEntry) :=
  [("Philadelphia", .single "76ers"), ("Milwaukee", .single "Bucks"),
   ("Chicago", .single "Bulls"), ("Cleveland", .single "Cavaliers"),
   ("Boston", .single "Celtics"), ("Los Angeles", .multi "Clippers" ["Lakers"]),
   ("Memphis", .single "Grizzlies"), ("Atlanta", .single "Hawks"),
   ("Miami", .single "Heat"), ("Charlotte", .single "Hornets"),
   ("Utah", .single "Jazz"), ("Sacramento", .single "Kings"),
   ("New York", .single "Knicks"), ("Orlando", .single "Magic"),
   ("Dallas", .single "Mavericks"), ("Brooklyn", .single "Nets"),
   ("Denver", .single "Nuggets"), ("Indiana", .single "Pacers"),
   ("New Orleans", .single "Pelicans"), ("Detroit", .single "Pistons"),
   ("Toronto", .single "Raptors"), ("Houston", .single "Rockets"),
   ("San Antonio", .single "Spurs"), ("Phoenix", .single "Suns"),
   ("Oklahoma City", .single "Thunder"), ("Minnesota", .single "Timberwolves"),
   ("Portland", .single "Trail Blazers"), ("Golden State", .single "Warriors"),
   ("Washington", .single "Wizards")]

/-- Python `name.lower() == raw.lower() or name.lower() in raw.lower()`,
the match test used by both loops of `normalize_team_name`. -/
def teamNameMatch (name raw : String) : Bool :=
  lowerL name.toList == lowerL raw.toList || containsSub (lowerL name.toList) (lowerL raw.toList)

/-- `normalize_team_name` of the source: empty input yields "Unknown";
then first team whose canonical name equals or is contained in the raw
token; then first city key equal to or contained in the raw token, a
multi-team city (Los Angeles) defaulting to its first team; otherwise the
raw token unchanged. -/
def normalize_team_name (raw_name : String) : String :=
  if raw_name = "" then "Unknown"
  else
    match nba_teams.find? (fun team => teamNameMatch team raw_name) with
    | some team => team
    | none =>
      match team_cities.find? (fun ct => teamNameMatch ct.1 raw_name) with
      | some (_, .single team) => team
      | some (_, .multi first _) => first
      | none => raw_name

/-! ## Recap classifier -/

/-- The `game_recap_keywords` list of the source. -/
def game_recap_keywords : List String :=
  ["recap", "final score", "defeat", "win", "lose", "loss", "fall", "beat",
   "game thread", "vs", "versus", "against", "victory", "down", "outlast"]

/-- `is_recap`: the lower-cased title contains some recap keyword. -/
def isRecap (title : String) : Bool :=
  game_recap_keywords.any (fun k => containsSub k.toList (lowerL title.toList))

/-! ## The four score patterns -/

/-- `(?:Spurs|San Antonio)` -/
def spursTok : RE := .alt (.lit "Spurs") (.lit "San Antonio")

/-- `\s+` -/
def sP : RE := .plusC .space

/-- `\s*` -/
def sS : RE := .starC .space

/-- `(\d+)` as capture group `i`. -/
def dG (i : Nat) : RE := .group i (.plusC .digit)

/-- `(\w+(?:\s+\w+)?)` as capture group `i`. -/
def teamG (i : Nat) : RE :=
  .group i (.cat (.plusC .word) (.opt (.cat (.plusC .space) (.plusC .word))))

/-- `[-–]` -/
def dashC : RE := .cls .dash

/-- `[,\s]+` -/
def csP : RE := .plusC .commaSpace

/-- `[^0-9]*` -/
def ndS : RE := .starC .nonDigit

/-- Pattern 1:
`(?:Spurs|San Antonio)\s+(\d+)[,\s]+(\w+(?:\s+\w+)?)\s+(\d+)|(\w+(?:\s+\w+)?)\s+(\d+)[,\s]+(?:Spurs|San Antonio)\s+(\d+)` -/
def pattern1 : RE :=
  .alt (catL [spursTok, sP, dG 1, csP, teamG 2, sP, dG 3])
       (catL [teamG 4, sP, dG 5, csP, spursTok, sP, dG 6])

/-- Pattern 2:
`[Ff]inal\s+[Ss]core:?\s+(?:(\w+(?:\s+\w+)?)\s+(\d+)[-–]\s*(\d+)\s+(?:Spurs|San Antonio)|(?:Spurs|San Antonio)\s+(\d+)[-–]\s*(\d+)\s+(\w+(?:\s+\w+)?))` -/
def pattern2 : RE :=
  catL [.lit "final", sP, .lit "score", .opt (.lit ":"), sP,
        .alt (catL [teamG 1, sP, dG 2, dashC, sS, dG 3, sP, spursTok])
             (catL [spursTok, sP, dG 4, dashC, sS, dG 5, sP, teamG 6])]

/-- `(?:\w+\s+){0,2}` unfolded as greedy nested options. -/
def words02 : RE :=
  .opt (.cat (.cat (.plusC .word) sP) (.opt (.cat (.plusC .word) sP)))

/-- Pattern 3:
`(\w+(?:\s+\w+)?)\s+to\s+a\s+(\d+)[-–]\s*(\d+)\s+win\s+(?:\w+\s+){0,2}(?:over|against)\s+(?:the\s+)?(?:Spurs|San Antonio)` -/
def pattern3 : RE :=
  catL [teamG 1, sP, .lit "to", sP, .lit "a", sP, dG 2, dashC, sS, dG 3, sP,
        .lit "win", sP, words02, .alt (.lit "over") (.lit "against"), sP,
        .opt (.cat (.lit "the") sP), spursTok]

/-- `(?:vs\.?|versus|@|at)` -/
def vsTok : RE :=
  .alt (.cat (.lit "vs") (.opt (.lit ".")))
       (.alt (.lit "versus") (.alt (.lit "@") (.lit "at")))

/-- Pattern 4:
`(?:Spurs|San Antonio)\s+(?:vs\.?|versus|@|at)\s+(\w+(?:\s+\w+)?)[^0-9]*(\d+)[-–]\s*(\d+)|(\w+(?:\s+\w+)?)\s+(?:vs\.?|versus|@|at)\s+(?:Spurs|San Antonio)[^0-9]*(\d+)[-–]\s*(\d+)` -/
def pattern4 : RE :=
  .alt (catL [spursTok, sP, vsTok, sP, teamG 1, ndS, dG 2, dashC, sS, dG 3])
       (catL [teamG 4, sP, vsTok, sP, spursTok, ndS, dG 5, dashC, sS, dG 6])

/-! ## Score-pattern handlers (the per-pattern branches of the source) -/

/-- The structured score recovered by a pattern branch. -/
structure ScoreInfo where
  spurs_score : Nat
  opponent_score : Nat
  opponent_raw : String
  deriving DecidableEq, Repr

/-- Branch for pattern 1 (lines 343-354): `if groups[0]` chooses the
direct order, otherwise the mirrored order; `none` models an exception on
a missing group or a failed `int()`. -/
def handle1 (caps : Caps) : Option ScoreInfo :=
  if capTruthy 1 caps then do
    let g1 ← lookupCap 1 caps
    let spurs_score ← pyInt g1
    let g2 ← lookupCap 2 caps
    let g3 ← lookupCap 3 caps
    let opponent_score ← pyInt g3
    some ⟨spurs_score, opponent_score, String.mk (stripChars g2)⟩
  else do
    let g4 ← lookupCap 4 caps
    let g5 ← lookupCap 5 caps
    let opponent_score ← pyInt g5
    let g6 ← lookupCap 6 caps
    let spurs_score ← pyInt g6
    some ⟨spurs_score, opponent_score, String.mk (stripChars g4)⟩

/-- Branch for pattern 2 (lines 356-367). -/
def handle2 (caps : Caps) : Option ScoreInfo :=
  if capTruthy 1 caps then do
    let g1 ← lookupCap 1 caps
    let g2 ← lookupCap 2 caps
    let opponent_score ← pyInt g2
    let g3 ← lookupCap 3 caps
    let spurs_score ← pyInt g3
    some ⟨spurs_score, opponent_score, String.mk (stripChars g1)⟩
  else do
    let g4 ← lookupCap 4 caps
    let spurs_score ← pyInt g4
    let g5 ← lookupCap 5 caps
    let opponent_score ← pyInt g5
    let g6 ← lookupCap 6 caps
    some ⟨spurs_score, opponent_score, String.mk (stripChars g6)⟩

/-- Branch for pattern 3 (lines 369-376): the form always encodes an
opponent win, the two numbers are opponent score then Spurs score. -/
def handle3 (caps : Caps) : Option ScoreInfo := do
  let g1 ← lookupCap 1 caps
  let g2 ← lookupCap 2 caps
  let opponent_score ← pyInt g2
  let g3 ← lookupCap 3 caps
  let spurs_score ← pyInt g3
  some ⟨spurs_score, opponent_score, String.mk (stripChars g1)⟩

/-- Branch for pattern 4 (lines 378-403): score-to-team assignment driven
by co-occurring "spurs win"/"spurs loss" phrases, defaulting to textual
order. -/
def handle4 (caps : Caps) (text : List Char) : Option ScoreInfo :=
  if capTruthy 1 caps then do
    let g1 ← lookupCap 1 caps
    let g2 ← lookupCap 2 caps
    let score1 ← pyInt g2
    let g3 ← lookupCap 3 caps
    let score2 ← pyInt g3
    let sc :=
      if lmemLower "win" text && lmemLower "spurs win" text then
        (Nat.max score1 score2, Nat.min score1 score2)
      else if lmemLower "loss" text && lmemLower "spurs loss" text then
        (Nat.min score1 score2, Nat.max score1 score2)
      else
        (score1, score2)
    some ⟨sc.1, sc.2, String.mk (stripChars g1)⟩
  else do
    let g4 ← lookupCap 4 caps
    let g5 ← lookupCap 5 caps
    let score1 ← pyInt g5
    let g6 ← lookupCap 6 caps
    let score2 ← pyInt g6
    let sc :=
      if lmemLower "win" text && lmemLower "spurs win" text then
        (Nat.max score1 score2, Nat.min score1 score2)
      else if lmemLower "loss" text && lmemLower "spurs loss" text then
        (Nat.min score1 score2, Nat.max score1 score2)
      else
        (score2, score1)
    some ⟨sc.1, sc.2, String.mk (stripChars g4)⟩

/-- The pattern cascade of lines 337-406: patterns tried in order 1-4,
stopping at the first hit; `some none` means no pattern matched,
outer `none` models an exception inside a branch. -/
def runScorePatterns (text : List Char) : Option (Option ScoreInfo) :=
  match reSearch pattern1 text with
  | some caps => (handle1 caps).map some
  | none =>
    match reSearch pattern2 text with
    | some caps => (handle2 caps).map some
    | none =>
      match reSearch pattern3 text with
      | some caps => (handle3 caps).map some
      | none =>
        match reSearch pattern4 text with
        | some caps => (handle4 caps text).map some
        | none => some none

/-! ## Outcome-inference fallback (lines 409-461) -/

/-- Opponent-by-team-name scan (lines 411-414): first team other than
"Spurs" whose lower-cased name occurs in the lower-cased text. -/
def teamScanOpponent (text : List Char) : Option String :=
  nba_teams.find? (fun team => team ≠ "Spurs" && lmem team text)

/-- Tie-break of the Los-Angeles branch: Python
`max(team_counts.items(), key=...)`, first entry winning ties. -/
def maxByCount (first : String) (rest : List String) (text : List Char) : String :=
  rest.foldl
    (fun best t =>
      if countOccs (lowerL t.toList) (lowerL text) >
          countOccs (lowerL best.toList) (lowerL text) then t else best)
    first

/-- Opponent-by-city scan (lines 417-438): first city other than
"San Antonio" occurring in the text; a multi-team city picks the
most-mentioned team if all are mentioned, the first mentioned one if some
is, and the first listed team otherwise. -/
def cityScanOpponent (text : List Char) : Option String :=
  match team_cities.find? (fun ct => ct.1 ≠ "San Antonio" && lmem ct.1 text) with
  | some (_, .single team) => some team
  | some (_, .multi first rest) =>
    let teams := first :: rest
    if teams.all (fun t => lmem t text) then some (maxByCount first rest text)
    else
      match teams.find? (fun t => lmem t text) with
      | some t => some t
      | none => some first
  | none => none

/-- `(?:vs\.?|versus|against|at|@)` of the fallback `teams_pattern`. -/
def vsTokFb : RE :=
  .alt (.cat (.lit "vs") (.opt (.lit ".")))
       (.alt (.lit "versus") (.alt (.lit "against") (.alt (.lit "at") (.lit "@"))))

/-- The fallback `teams_pattern` (line 442):
`(?:Spurs|San Antonio)\s+(?:vs\.?|versus|against|at|@)\s+(\w+(?:\s+\w+)?)|(\w+(?:\s+\w+)?)\s+(?:vs\.?|versus|against|at|@)\s+(?:Spurs|San Antonio)` -/
def teams_pattern : RE :=
  .alt (catL [spursTok, sP, vsTokFb, sP, teamG 1])
       (catL [teamG 2, sP, vsTokFb, sP, spursTok])

/-- Python `next((g for g in groups if g), None)`: the first truthy capture
among the given group indices. -/
def firstTruthyCap (caps : Caps) (idxs : List Nat) : Option (List Char) :=
  idxs.findSome? (fun i =>
    match lookupCap i caps with
    | some v => if v.isEmpty then none else some v
    | none => none)

/-- Opponent-by-"vs" syntax (lines 441-448). -/
def vsScanOpponent (text : List Char) : Option String :=
  match reSearch teams_pattern text with
  | some caps =>
    match firstTruthyCap caps [1, 2] with
    | some raw => some (normalize_team_name (String.mk (stripChars raw)))
    | none => none
  | none => none

/-- The fallback opponent resolution, each step short-circuiting
(`if not opponent:` guards in the source; every recovered opponent is a
non-empty team name, so option emptiness models Python falsiness). -/
def fallbackOpponent (text : List Char) : Option String :=
  match teamScanOpponent text with
  | some t => some t
  | none =>
    match cityScanOpponent text with
    | some t => some t
    | none => vsScanOpponent text

/-- The `spurs_win_indicators` list of the source. -/
def spurs_win_indicators : List String :=
  ["spurs win", "spurs defeat", "spurs beat", "spurs down",
   "san antonio win", "san antonio defeat", "san antonio beat"]

/-- The `spurs_loss_indicators` list of the source. -/
def spurs_loss_indicators : List String :=
  ["spurs lose", "spurs fall", "spurs lost", "defeated by", "beaten by",
   "fall to", "lose to", "win over spurs", "victory over spurs",
   "over the spurs"]

/-- Result-by-keyword scan (lines 450-461). -/
def inferResultFromKeywords (text : List Char) : Option String :=
  if spurs_win_indicators.any (fun s => lmemLower s text) then some "Win"
  else if spurs_loss_indicators.any (fun s => lmemLower s text) then some "Loss"
  else none

/-! ## Location resolver (lines 468-497) -/

/-- `(?:played|playing|game)` -/
def playedTok : RE := .alt (.lit "played") (.alt (.lit "playing") (.lit "game"))

/-- The `location_patterns` list of the source, in order, each wrapped in
group 0 so that the matched text (`match.group(0)`) is recoverable. -/
def location_patterns : List RE :=
  [.group 0 (catL [playedTok, sP, .lit "at", sP, .lit "home"]),
   .group 0 (catL [playedTok, sP, .lit "on", sP, .lit "the", sP, .lit "road"]),
   .group 0 (catL [.lit "in", sP, .lit "San", sP, .lit "Antonio"]),
   .group 0 (catL [.lit "at", sP, .lit "the", sP,
                   .alt (.lit "AT&T") (.cat (.lit "Frost") (.cat sP (.lit "Bank"))),
                   sP, .lit "Center"]),
   .group 0 (catL [.lit "away", sP, .lit "game"]),
   .group 0 (catL [.lit "host", .alt (.lit "s") (.alt (.lit "ing") (.lit "ed")),
                   sP, .lit "the"]),
   .group 0 (catL [.lit "visit", .alt (.lit "s") (.alt (.lit "ing") (.lit "ed")),
                   sP, .lit "the"])]

/-- The home-phrase subset tested against the matched location text. -/
def homeWords : List String := ["at home", "in san antonio", "at the", "host"]

/-- `(?:Spurs|San Antonio)\s+@\s+<opponent>` (opponent literal via
`re.escape`). -/
def vsPat (opp : String) : RE := catL [spursTok, sP, .lit "@", sP, .lit opp]

/-- `<opponent>\s+@\s+(?:Spurs|San Antonio)`. -/
def atPat (opp : String) : RE := catL [.lit opp, sP, .lit "@", sP, spursTok]

/-- The location resolution of lines 468-497: first location pattern to
match classifies as Home when its matched text contains a home phrase,
else Away; with no phrase matched and a truthy opponent, the literal
`@`-notation decides; otherwise no location (assembled as "Unknown"). -/
def resolveLocation (text : List Char) (opponent : Option String) : Option String :=
  match location_patterns.findSome? (fun p => reSearch p text) with
  | some caps =>
    let location_text := lowerL ((lookupCap 0 caps).getD [])
    if homeWords.any (fun w => containsSub w.toList location_text) then some "Home"
    else some "Away"
  | none =>
    match opponent with
    | some opp =>
      if opp = "" then none
      else if (reSearch (vsPat opp) text).isSome then some "Away"
      else if (reSearch (atPat opp) text).isSome then some "Home"
      else none
    | none => none

/-! ## Result assembler -/

/-- The article record of the source (`content = ""` models a missing
content, mirroring Python falsiness of `None` and of the empty string). -/
structure Article where
  title : String
  link : String
  description : String
  pub_date : String
  guid : String
  content : String
  deriving DecidableEq, Repr

/-- The emitted game-result record of the source. -/
structure GameResult where
  date : String
  opponent : String
  score : String
  result : String
  location : String
  deriving DecidableEq, Repr

/-- The score string of line 465:
`f"Spurs {spurs_score}, {opponent} {opponent_score}"`. -/
def scoreString (spurs_score : Nat) (opponent : Option String) (opponent_score : Nat) : String :=
  "Spurs " ++ (toString spurs_score ++ ", " ++ pyShow opponent ++ " " ++ toString opponent_score)

/-- Lines 463-466: when both scores are recovered, build the score string
and set the result by the literal `>` comparison; otherwise keep the
previous (possibly keyword-inferred) result and no score. -/
def applyScores (spurs_score opponent_score : Option Nat) (opponent : Option String)
    (result : Option String) : Option String × Option String :=
  match spurs_score, opponent_score with
  | some ss, some os =>
    (some (scoreString ss opponent os), some (if ss > os then "Win" else "Loss"))
  | _, _ => (none, result)

/-- The per-article extraction state after the body of the
`if content:` block has run. -/
structure Extraction where
  opponent : Option String
  score : Option String
  result : Option String
  location : Option String
  deriving DecidableEq, Repr

/-- The body of the `if content:` block (lines 321-497) on the combined
text: score-pattern cascade, fallback inference when no pattern matched,
score/result assignment and location resolution.  Outer `none` models an
uncaught exception. -/
def processText (text : List Char) : Option Extraction :=
  match runScorePatterns text with
  | none => none
  | some (some si) =>
    let opponent := some (normalize_team_name si.opponent_raw)
    let sr := applyScores (some si.spurs_score) (some si.opponent_score) opponent none
    some ⟨opponent, sr.1, sr.2, resolveLocation text opponent⟩
  | some none =>
    let opponent := fallbackOpponent text
    let result0 := inferResultFromKeywords text
    let sr := applyScores none none opponent result0
    some ⟨opponent, sr.1, sr.2, resolveLocation text opponent⟩

/-- Lines 318-323: the text handed to the matcher is the plain content
(falling back to the description) concatenated with the title; a recap
article with no content yields no text and is never emitted. -/
def articleText (a : Article) : Option (List Char) :=
  if isRecap a.title then
    let content := if a.content ≠ "" then a.content else a.description
    if content = "" then none else some ((content ++ " " ++ a.title).toList)
  else none

/-- Lines 501-507: the emitted record, with `x if x else <sentinel>`
defaults. -/
def assembleGR (a : Article) (e : Extraction) : GameResult :=
  { date := a.pub_date
    opponent := pyOrElse e.opponent "Unknown"
    score := pyOrElse e.score "Score not found"
    result := pyOrElse e.result "Unknown"
    location := pyOrElse e.location "Unknown" }

/-- One loop iteration of `extract_game_results` (lines 305-507):
`some none` when the article is skipped or dropped, `some (some gr)` when
a record is appended, `none` when an exception would propagate.  The
emission gate is the literal `if result and score:` of line 500. -/
def extractOne (a : Article) : Option (Option GameResult) :=
  match articleText a with
  | none => some none
  | some text =>
    match processText text with
    | none => none
    | some e =>
      some (if pyTruthy e.result && pyTruthy e.score then some (assembleGR a e)
            else none)

/-- `extract_game_results` over the article list, preserving article
order; `none` models an exception aborting the pass. -/
def extract_game_results : List Article → Option (List GameResult)
  | [] => some []
  | a :: rest =>
    match extractOne a, extract_game_results rest with
    | some r, some rs =>
      some (match r with
            | some gr => gr :: rs
            | none => rs)
    | _, _ => none

/-! ## Declarative matching semantics, used to reason about captures -/

/-- A pattern contains no capture group. -/
def groupFree : RE → Bool
  | .eps => true
  | .cls _ => true
  | .lit _ => true
  | .cat a b => groupFree a && groupFree b
  | .alt a b => groupFree a && groupFree b
  | .opt r => groupFree r
  | .plusC _ => true
  | .starC _ => true
  | .group _ _ => false

/-- `Matches re v c`: the pattern `re` can consume exactly the characters
`v` recording the captures `c` (most recent first).  This is the
nondeterministic reading of the pattern language; `reMatch` only ever
produces matches in this relation. -/
inductive Matches : RE → List Char → Caps → Prop where
  | eps : Matches .eps [] []
  | cls {p c} : cmatch p c = true → Matches (.cls p) [c] []
  | lit {str v} : dropLit str.toList v = some [] → Matches (.lit str) v []
  | cat {a b v1 v2 c1 c2} : Matches a v1 c1 → Matches b v2 c2 →
      Matches (.cat a b) (v1 ++ v2) (c2 ++ c1)
  | altL {a b v c} : Matches a v c → Matches (.alt a b) v c
  | altR {a b v c} : Matches b v c → Matches (.alt a b) v c
  | optS {r v c} : Matches r v c → Matches (.opt r) v c
  | optN {r} : Matches (.opt r) [] []
  | plus {p v} : v ≠ [] → v.all (cmatch p) = true → Matches (.plusC p) v []
  | star {p v} : v.all (cmatch p) = true → Matches (.starC p) v []
  | group {i r v c} : Matches r v c → Matches (.group i r) v ((i, v) :: c)

/-! ## Concrete inputs used by the witnesses and counterexamples -/

/-- A recap article carrying a direct pattern-1 score. -/
def artScore : Article :=
  { title := "Recap", link := "", description := "", pub_date := "2025-01-01",
    guid := "g1", content := "Spurs 120, Jazz 110" }

/-- The combined text of `artScore`. -/
def artScoreText : List Char := ("Spurs 120, Jazz 110" ++ " " ++ "Recap").toList

/-- The extraction state reached on `artScoreText`. -/
def artScoreExtraction : Extraction :=
  { opponent := some "Jazz", score := some "Spurs 120, Jazz 110",
    result := some "Win", location := none }

/-- A recap article whose result is recovered only by the keyword
fallback (no digits, hence no score pattern can match). -/
def artKeywordOnly : Article :=
  { title := "Spurs lose", link := "", description := "", pub_date := "2025-01-02",
    guid := "g2", content := "Spurs lose to the Jazz" }

/-- The combined text of `artKeywordOnly`. -/
def artKeywordOnlyText : List Char :=
  ("Spurs lose to the Jazz" ++ " " ++ "Spurs lose").toList

/-- A second scoring article, used by the invariant witness. -/
def artScoreB : Article :=
  { title := "Game thread", link := "", description := "", pub_date := "2025-01-03",
    guid := "g3", content := "Final Score: Clippers 122-117 Spurs" }

/-- The record emitted for `artScoreB`. -/
def grScoreB : GameResult :=
  { date := "2025-01-03", opponent := "Clippers", score := "Spurs 117, Clippers 122",
    result := "Loss", location := "Unknown" }

/-- A text where both pattern 1 and pattern 2 match. -/
def bothPatternsText : List Char :=
  ("Spurs 120, Lakers 110 and Final Score: Lakers 110-120 Spurs").toList

/-! ## Soundness of the matcher with respect to `Matches` -/

/-- A successful literal match splits the input into a consumed prefix that
fully matches the literal, and the rest. -/
theorem dropLit_sound :
    ∀ (pat s rest : List Char), dropLit pat s = some rest →
      ∃ pre, s = pre ++ rest ∧ dropLit pat pre = some [] := by
  intro pat
  induction pat with
  | nil =>
    intro s rest h
    simp only [dropLit, Option.some.injEq] at h
    exact ⟨[], by simp [h], rfl⟩
  | cons p ps ih =>
    intro s rest h
    cases s with
    | nil => simp [dropLit] at h
    | cons c cs =>
      simp only [dropLit] at h
      by_cases hc : ciEq p c = true
      · rw [if_pos hc] at h
        obtain ⟨pre, hpre, hdrop⟩ := ih cs rest h
        exact ⟨c :: pre, by simp [hpre], by simp [dropLit, hc, hdrop]⟩
      · rw [if_neg hc] at h
        exact absurd h (by simp)

/-- Backtracking over a positive repetition only calls the continuation on
suffixes obtained by consuming between 1 and `n` characters. -/
theorem tryDownPos_sound (s : List Char) (caps : Caps)
    (k : List Char → Caps → Option Caps) :
    ∀ (n : Nat) (res : Caps), tryDownPos s caps k n = some res →
      ∃ i, 1 ≤ i ∧ i ≤ n ∧ k (s.drop i) caps = some res := by
  intro n
  induction n with
  | zero => intro res h; simp [tryDownPos] at h
  | succ m ih =>
    intro res h
    simp only [tryDownPos] at h
    cases hk : k (s.drop (m + 1)) caps with
    | some r =>
      rw [hk] at h
      exact ⟨m + 1, Nat.succ_le_succ (Nat.zero_le m), Nat.le_refl _, by rw [hk]; exact h⟩
    | none =>
      rw [hk] at h
      obtain ⟨i, h1, h2, h3⟩ := ih res h
      exact ⟨i, h1, Nat.le_succ_of_le h2, h3⟩

/-- Backtracking over a possibly-empty repetition only calls the
continuation on suffixes obtained by consuming at most `n` characters. -/
theorem tryDown_sound (s : List Char) (caps : Caps)
    (k : List Char → Caps → Option Caps) :
    ∀ (n : Nat) (res : Caps), tryDown s caps k n = some res →
      ∃ i, i ≤ n ∧ k (s.drop i) caps = some res := by
  intro n
  induction n with
  | zero =>
    intro res h
    exact ⟨0, Nat.le_refl _, by simpa [tryDown] using h⟩
  | succ m ih =>
    intro res h
    simp only [tryDown] at h
    cases hk : k (s.drop (m + 1)) caps with
    | some r =>
      rw [hk] at h
      exact ⟨m + 1, Nat.le_refl _, by rw [hk]; exact h⟩
    | none =>
      rw [hk] at h
      obtain ⟨i, h1, h2⟩ := ih res h
      exact ⟨i, Nat.le_succ_of_le h1, h2⟩

/-- Characters taken from within the maximal `takeWhile` prefix all satisfy
the predicate. -/
theorem take_all_of_le_takeWhile :
    ∀ (s : List Char) (p : Char → Bool) (i : Nat),
      i ≤ (s.takeWhile p).length → (s.take i).all p = true := by
  intro s
  induction s with
  | nil => intro p i _; simp
  | cons c cs ih =>
    intro p i hi
    cases hp : p c with
    | false =>
      simp [List.takeWhile_cons, hp] at hi
      subst hi; simp
    | true =>
      cases i with
      | zero => simp
      | succ j =>
        simp [List.takeWhile_cons, hp] at hi
        simp only [List.take_succ_cons, List.all_cons, hp, Bool.true_and]
        exact ih p j (by omega)

/-- A non-trivial take from within the maximal `takeWhile` prefix is
non-empty. -/
theorem take_ne_nil_of_le_takeWhile {s : List Char} {p : Char → Bool} {i : Nat}
    (h1 : 1 ≤ i) (h2 : i ≤ (s.takeWhile p).length) : s.take i ≠ [] := by
  cases s with
  | nil => simp at h2; omega
  | cons c cs =>
    cases i with
    | zero => omega
    | succ j => simp

/-- Soundness of the backtracking matcher: a successful run consumes a
prefix that is in the `Matches` relation, and hands the continuation the
new captures pushed onto the old ones. -/
theorem reMatch_sound :
    ∀ (re : RE) (s : List Char) (caps : Caps)
      (k : List Char → Caps → Option Caps) (res : Caps),
      reMatch re s caps k = some res →
      ∃ pre s1 newcs, s = pre ++ s1 ∧ Matches re pre newcs ∧
        k s1 (newcs ++ caps) = some res := by
  intro re
  induction re with
  | eps =>
    intro s caps k res h
    exact ⟨[], s, [], rfl, .eps, h⟩
  | cls p =>
    intro s caps k res h
    cases s with
    | nil => simp [reMatch] at h
    | cons c rest =>
      simp only [reMatch] at h
      cases hc : cmatch p c with
      | false => rw [hc] at h; simp at h
      | true =>
        rw [hc] at h; simp only [if_true] at h
        exact ⟨[c], rest, [], rfl, .cls hc, h⟩
  | lit str =>
    intro s caps k res h
    simp only [reMatch] at h
    cases hd : dropLit str.toList s with
    | none => rw [hd] at h; exact absurd h (by simp)
    | some rest =>
      rw [hd] at h
      obtain ⟨pre, hpre, hlit⟩ := dropLit_sound _ _ _ hd
      exact ⟨pre, rest, [], hpre, .lit hlit, h⟩
  | cat a b iha ihb =>
    intro s caps k res h
    simp only [reMatch] at h
    obtain ⟨pre1, s1, new1, hs, hm1, hk1⟩ := iha s caps _ res h
    obtain ⟨pre2, s2, new2, hs1, hm2, hk2⟩ := ihb s1 (new1 ++ caps) k res hk1
    refine ⟨pre1 ++ pre2, s2, new2 ++ new1, ?_, .cat hm1 hm2, ?_⟩
    · rw [hs, hs1, List.append_assoc]
    · rw [List.append_assoc]; exact hk2
  | alt a b iha ihb =>
    intro s caps k res h
    simp only [reMatch] at h
    cases hma : reMatch a s caps k with
    | some r =>
      rw [hma] at h
      obtain ⟨pre, s1, newcs, hs, hm, hk⟩ := iha s caps k r hma
      cases h
      exact ⟨pre, s1, newcs, hs, .altL hm, hk⟩
    | none =>
      rw [hma] at h
      obtain ⟨pre, s1, newcs, hs, hm, hk⟩ := ihb s caps k res h
      exact ⟨pre, s1, newcs, hs, .altR hm, hk⟩
  | opt r ihr =>
    intro s caps k res h
    simp only [reMatch] at h
    cases hmr : reMatch r s caps k with
    | some r2 =>
      rw [hmr] at h
      obtain ⟨pre, s1, newcs, hs, hm, hk⟩ := ihr s caps k r2 hmr
      cases h
      exact ⟨pre, s1, newcs, hs, .optS hm, hk⟩
    | none =>
      rw [hmr] at h
      exact ⟨[], s, [], rfl, .optN, h⟩
  | plusC p =>
    intro s caps k res h
    simp only [reMatch] at h
    obtain ⟨i, h1, h2, hk⟩ := tryDownPos_sound s caps k _ res h
    refine ⟨s.take i, s.drop i, [], (List.take_append_drop i s).symm,
      .plus (take_ne_nil_of_le_takeWhile h1 h2) (take_all_of_le_takeWhile s _ i h2), hk⟩
  | starC p =>
    intro s caps k res h
    simp only [reMatch] at h
    obtain ⟨i, h2, hk⟩ := tryDown_sound s caps k _ res h
    refine ⟨s.take i, s.drop i, [], (List.take_append_drop i s).symm,
      .star (take_all_of_le_takeWhile s _ i h2), hk⟩
  | group i r ihr =>
    intro s caps k res h
    simp only [reMatch] at h
    obtain ⟨pre, s1, new1, hs, hm, hk⟩ := ihr s caps _ res h
    have hlen : s.length - s1.length = pre.length := by
      rw [hs]; simp [List.length_append]
    have hpre : s.take (s.length - s1.length) = pre := by
      rw [hlen, hs, List.take_left]
    rw [hpre] at hk
    exact ⟨pre, s1, (i, pre) :: new1, hs, .group hm, hk⟩

/-- A successful `re.search` yields captures of an actual match of the
pattern (on some fragment of the text). -/
theorem reSearch_sound (r : RE) :
    ∀ (s : List Char) (caps : Caps), reSearch r s = some caps →
      ∃ pre, Matches r pre caps := by
  intro s
  induction s with
  | nil =>
    intro caps h
    simp only [reSearch] at h
    obtain ⟨pre, s1, newcs, _, hm, hk⟩ := reMatch_sound r [] [] _ caps h
    simp only [List.append_nil, Option.some.injEq] at hk
    rw [hk] at hm
    exact ⟨pre, hm⟩
  | cons c rest ih =>
    intro caps h
    simp only [reSearch] at h
    cases hm : reMatch r (c :: rest) [] (fun _ c => some c) with
    | some c2 =>
      rw [hm] at h
      obtain ⟨pre, s1, newcs, _, hmm, hk⟩ := reMatch_sound r (c :: rest) [] _ c2 hm
      simp only [List.append_nil, Option.some.injEq] at hk
      rw [hk] at hmm
      injection h with h2
      rw [h2] at hmm
      exact ⟨pre, hmm⟩
    | none =>
      rw [hm] at h
      exact ih caps h

/-! ## Inverting `Matches` on the concrete patterns -/

/-- A group-free pattern records no captures. -/
theorem matches_groupFree {re : RE} {v : List Char} {c : Caps}
    (hm : Matches re v c) : groupFree re = true → c = [] := by
  induction hm with
  | eps => intro _; rfl
  | cls _ => intro _; rfl
  | lit _ => intro _; rfl
  | cat _ _ ih1 ih2 =>
    intro hg
    simp only [groupFree, Bool.and_eq_true] at hg
    rw [ih1 hg.1, ih2 hg.2]; rfl
  | altL _ ih =>
    intro hg
    simp only [groupFree, Bool.and_eq_true] at hg
    exact ih hg.1
  | altR _ ih =>
    intro hg
    simp only [groupFree, Bool.and_eq_true] at hg
    exact ih hg.2
  | optS _ ih => intro hg; exact ih hg
  | optN => intro _; rfl
  | plus _ _ => intro _; rfl
  | star _ => intro _; rfl
  | group _ _ => intro hg; simp [groupFree] at hg

/-- Inversion for concatenation. -/
theorem matches_cat_inv {a b : RE} {v : List Char} {c : Caps}
    (h : Matches (.cat a b) v c) :
    ∃ v1 v2 c1 c2, v = v1 ++ v2 ∧ c = c2 ++ c1 ∧ Matches a v1 c1 ∧ Matches b v2 c2 := by
  cases h with
  | cat h1 h2 => exact ⟨_, _, _, _, rfl, rfl, h1, h2⟩

/-- Inversion for alternation. -/
theorem matches_alt_inv {a b : RE} {v : List Char} {c : Caps}
    (h : Matches (.alt a b) v c) : Matches a v c ∨ Matches b v c := by
  cases h with
  | altL h1 => exact Or.inl h1
  | altR h1 => exact Or.inr h1

/-- Inversion for a capture group. -/
theorem matches_group_inv {i : Nat} {r : RE} {v : List Char} {c : Caps}
    (h : Matches (.group i r) v c) : ∃ c1, c = (i, v) :: c1 ∧ Matches r v c1 := by
  cases h with
  | group h1 => exact ⟨_, rfl, h1⟩

/-- Inversion for a positive class repetition. -/
theorem matches_plus_inv {p : CClass} {v : List Char} {c : Caps}
    (h : Matches (.plusC p) v c) : c = [] ∧ v ≠ [] ∧ v.all (cmatch p) = true := by
  cases h with
  | plus h1 h2 => exact ⟨rfl, h1, h2⟩

/-- Inversion for the empty pattern. -/
theorem matches_eps_inv {v : List Char} {c : Caps}
    (h : Matches .eps v c) : v = [] ∧ c = [] := by
  cases h with
  | eps => exact ⟨rfl, rfl⟩

/-- Stepping over a group-free head of a concatenation chain leaves the
captures untouched. -/
theorem matches_cat_skip {a b : RE} {v : List Char} {c : Caps}
    (hgf : groupFree a = true) (h : Matches (.cat a b) v c) :
    ∃ v2, Matches b v2 c := by
  obtain ⟨v1, v2, c1, c2, _, hc, h1, h2⟩ := matches_cat_inv h
  have hc1 : c1 = [] := matches_groupFree h1 hgf
  subst hc1
  rw [List.append_nil] at hc
  subst hc
  exact ⟨v2, h2⟩

/-- Stepping over a `(\d+)` capture group at the head of a concatenation
chain: the group records a non-empty all-digit capture, appended after the
captures of the rest of the chain. -/
theorem matches_cat_dG {i : Nat} {b : RE} {v : List Char} {c : Caps}
    (h : Matches (.cat (dG i) b) v c) :
    ∃ d c2, c = c2 ++ [(i, d)] ∧ d ≠ [] ∧ d.all Char.isDigit = true ∧
      ∃ v2, Matches b v2 c2 := by
  obtain ⟨v1, v2, c1, c2, _, hc, h1, h2⟩ := matches_cat_inv h
  obtain ⟨c1', hc1, h1'⟩ := matches_group_inv h1
  obtain ⟨hc1', hne, hdig⟩ := matches_plus_inv h1'
  subst hc1'
  subst hc1
  subst hc
  exact ⟨v1, c2, rfl, hne, by simpa [cmatch] using hdig, v2, h2⟩

/-- Stepping over a `(\w+(?:\s+\w+)?)` capture group at the head of a
concatenation chain: the group records a non-empty capture. -/
theorem matches_cat_teamG {i : Nat} {b : RE} {v : List Char} {c : Caps}
    (h : Matches (.cat (teamG i) b) v c) :
    ∃ w c2, c = c2 ++ [(i, w)] ∧ w ≠ [] ∧ ∃ v2, Matches b v2 c2 := by
  obtain ⟨v1, v2, c1, c2, _, hc, h1, h2⟩ := matches_cat_inv h
  obtain ⟨c1', hc1, h1'⟩ := matches_group_inv h1
  have hc1' : c1' = [] := matches_groupFree h1' (by decide)
  obtain ⟨va, vb, ca, cb, hveq, _, ha, _⟩ := matches_cat_inv h1'
  obtain ⟨_, hane, _⟩ := matches_plus_inv ha
  have hne : v1 ≠ [] := by
    rw [hveq]
    intro hnil
    exact hane (List.append_eq_nil.mp hnil).1
  subst hc1'
  subst hc1
  subst hc
  exact ⟨v1, c2, rfl, hne, v2, h2⟩

/-- Shape of the captures of any pattern-1 match: either the direct
branch participates with groups 1-3, or the mirrored branch with
groups 4-6; digit groups capture non-empty digit strings. -/
theorem pattern1_caps {v : List Char} {caps : Caps} (h : Matches pattern1 v caps) :
    (∃ d1 w2 d3, caps = [(3, d3), (2, w2), (1, d1)] ∧
      d1 ≠ [] ∧ d1.all Char.isDigit = true ∧ w2 ≠ [] ∧
      d3 ≠ [] ∧ d3.all Char.isDigit = true) ∨
    (∃ w4 d5 d6, caps = [(6, d6), (5, d5), (4, w4)] ∧
      w4 ≠ [] ∧ d5 ≠ [] ∧ d5.all Char.isDigit = true ∧
      d6 ≠ [] ∧ d6.all Char.isDigit = true) := by
  simp only [pattern1, catL, List.foldr] at h
  rcases matches_alt_inv h with hA | hB
  · obtain ⟨_, hA⟩ := matches_cat_skip (by decide) hA
    obtain ⟨_, hA⟩ := matches_cat_skip (by decide) hA
    obtain ⟨d1, c2, hc2, hd1ne, hd1dig, _, hA⟩ := matches_cat_dG hA
    obtain ⟨_, hA⟩ := matches_cat_skip (by decide) hA
    obtain ⟨w2, c3, hc3, hw2ne, _, hA⟩ := matches_cat_teamG hA
    obtain ⟨_, hA⟩ := matches_cat_skip (by decide) hA
    obtain ⟨d3, c4, hc4, hd3ne, hd3dig, _, hA⟩ := matches_cat_dG hA
    have hc5 : c4 = [] := (matches_eps_inv hA).2
    subst hc5; subst hc4; subst hc3; subst hc2
    exact Or.inl ⟨d1, w2, d3, by simp, hd1ne, hd1dig, hw2ne, hd3ne, hd3dig⟩
  · obtain ⟨w4, c2, hc2, hw4ne, _, hB⟩ := matches_cat_teamG hB
    obtain ⟨_, hB⟩ := matches_cat_skip (by decide) hB
    obtain ⟨d5, c3, hc3, hd5ne, hd5dig, _, hB⟩ := matches_cat_dG hB
    obtain ⟨_, hB⟩ := matches_cat_skip (by decide) hB
    obtain ⟨_, hB⟩ := matches_cat_skip (by decide) hB
    obtain ⟨_, hB⟩ := matches_cat_skip (by decide) hB
    obtain ⟨d6, c4, hc4, hd6ne, hd6dig, _, hB⟩ := matches_cat_dG hB
    have hc5 : c4 = [] := (matches_eps_inv hB).2
    subst hc5; subst hc4; subst hc3; subst hc2
    exact Or.inr ⟨w4, d5, d6, by simp, hw4ne, hd5ne, hd5dig, hd6ne, hd6dig⟩

/-- Shape of the captures of any pattern-2 match. -/
theorem pattern2_caps {v : List Char} {caps : Caps} (h : Matches pattern2 v caps) :
    (∃ w1 d2 d3, caps = [(3, d3), (2, d2), (1, w1)] ∧
      w1 ≠ [] ∧ d2 ≠ [] ∧ d2.all Char.isDigit = true ∧
      d3 ≠ [] ∧ d3.all Char.isDigit = true) ∨
    (∃ d4 d5 w6, caps = [(6, w6), (5, d5), (4, d4)] ∧
      d4 ≠ [] ∧ d4.all Char.isDigit = true ∧
      d5 ≠ [] ∧ d5.all Char.isDigit = true ∧ w6 ≠ []) := by
  simp only [pattern2, catL, List.foldr] at h
  obtain ⟨_, h⟩ := matches_cat_skip (by decide) h
  obtain ⟨_, h⟩ := matches_cat_skip (by decide) h
  obtain ⟨_, h⟩ := matches_cat_skip (by decide) h
  obtain ⟨_, h⟩ := matches_cat_skip (by decide) h
  obtain ⟨_, h⟩ := matches_cat_skip (by decide) h
  obtain ⟨v1, v2, c1, c2, _, hc, h1, h2⟩ := matches_cat_inv h
  have hc2 : c2 = [] := (matches_eps_inv h2).2
  subst hc2
  rw [List.nil_append] at hc
  subst hc
  rcases matches_alt_inv h1 with hA | hB
  · obtain ⟨w1, c2, hc2, hw1ne, _, hA⟩ := matches_cat_teamG hA
    obtain ⟨_, hA⟩ := matches_cat_skip (by decide) hA
    obtain ⟨d2, c3, hc3, hd2ne, hd2dig, _, hA⟩ := matches_cat_dG hA
    obtain ⟨_, hA⟩ := matches_cat_skip (by decide) hA
    obtain ⟨_, hA⟩ := matches_cat_skip (by decide) hA
    obtain ⟨d3, c4, hc4, hd3ne, hd3dig, _, hA⟩ := matches_cat_dG hA
    obtain ⟨_, hA⟩ := matches_cat_skip (by decide) hA
    obtain ⟨_, hA⟩ := matches_cat_skip (by decide) hA
    have hc5 : c4 = [] := (matches_eps_inv hA).2
    subst hc5; subst hc4; subst hc3; subst hc2
    exact Or.inl ⟨w1, d2, d3, by simp, hw1ne, hd2ne, hd2dig, hd3ne, hd3dig⟩
  · obtain ⟨_, hB⟩ := matches_cat_skip (by decide) hB
    obtain ⟨_, hB⟩ := matches_cat_skip (by decide) hB
    obtain ⟨d4, c2, hc2, hd4ne, hd4dig, _, hB⟩ := matches_cat_dG hB
    obtain ⟨_, hB⟩ := matches_cat_skip (by decide) hB
    obtain ⟨_, hB⟩ := matches_cat_skip (by decide) hB
    obtain ⟨d5, c3, hc3, hd5ne, hd5dig, _, hB⟩ := matches_cat_dG hB
    obtain ⟨_, hB⟩ := matches_cat_skip (by decide) hB
    obtain ⟨w6, c4, hc4, hw6ne, _, hB⟩ := matches_cat_teamG hB
    have hc5 : c4 = [] := (matches_eps_inv hB).2
    subst hc5; subst hc4; subst hc3; subst hc2
    exact Or.inr ⟨d4, d5, w6, by simp, hd4ne, hd4dig, hd5ne, hd5dig, hw6ne⟩

/-- Shape of the captures of any pattern-3 match. -/
theorem pattern3_caps {v : List Char} {caps : Caps} (h : Matches pattern3 v caps) :
    ∃ w1 d2 d3, caps = [(3, d3), (2, d2), (1, w1)] ∧
      w1 ≠ [] ∧ d2 ≠ [] ∧ d2.all Char.isDigit = true ∧
      d3 ≠ [] ∧ d3.all Char.isDigit = true := by
  simp only [pattern3, catL, List.foldr] at h
  obtain ⟨w1, c2, hc2, hw1ne, _, h⟩ := matches_cat_teamG h
  obtain ⟨_, h⟩ := matches_cat_skip (by decide) h
  obtain ⟨_, h⟩ := matches_cat_skip (by decide) h
  obtain ⟨_, h⟩ := matches_cat_skip (by decide) h
  obtain ⟨_, h⟩ := matches_cat_skip (by decide) h
  obtain ⟨_, h⟩ := matches_cat_skip (by decide) h
  obtain ⟨d2, c3, hc3, hd2ne, hd2dig, _, h⟩ := matches_cat_dG h
  obtain ⟨_, h⟩ := matches_cat_skip (by decide) h
  obtain ⟨_, h⟩ := matches_cat_skip (by decide) h
  obtain ⟨d3, c4, hc4, hd3ne, hd3dig, _, h⟩ := matches_cat_dG h
  obtain ⟨_, h⟩ := matches_cat_skip (by decide) h
  obtain ⟨_, h⟩ := matches_cat_skip (by decide) h
  obtain ⟨_, h⟩ := matches_cat_skip (by decide) h
  obtain ⟨_, h⟩ := matches_cat_skip (by decide) h
  obtain ⟨_, h⟩ := matches_cat_skip (by decide) h
  obtain ⟨_, h⟩ := matches_cat_skip (by decide) h
  obtain ⟨_, h⟩ := matches_cat_skip (by decide) h
  obtain ⟨_, h⟩ := matches_cat_skip (by decide) h
  have hc5 : c4 = [] := (matches_eps_inv h).2
  subst hc5; subst hc4; subst hc3; subst hc2
  exact ⟨w1, d2, d3, by simp, hw1ne, hd2ne, hd2dig, hd3ne, hd3dig⟩

/-- Shape of the captures of any pattern-4 match. -/
theorem pattern4_caps {v : List Char} {caps : Caps} (h : Matches pattern4 v caps) :
    (∃ w1 d2 d3, caps = [(3, d3), (2, d2), (1, w1)] ∧
      w1 ≠ [] ∧ d2 ≠ [] ∧ d2.all Char.isDigit = true ∧
      d3 ≠ [] ∧ d3.all Char.isDigit = true) ∨
    (∃ w4 d5 d6, caps = [(6, d6), (5, d5), (4, w4)] ∧
      w4 ≠ [] ∧ d5 ≠ [] ∧ d5.all Char.isDigit = true ∧
      d6 ≠ [] ∧ d6.all Char.isDigit = true) := by
  simp only [pattern4, catL, List.foldr] at h
  rcases matches_alt_inv h with hA | hB
  · obtain ⟨_, hA⟩ := matches_cat_skip (by decide) hA
    obtain ⟨_, hA⟩ := matches_cat_skip (by decide) hA
    obtain ⟨_, hA⟩ := matches_cat_skip (by decide) hA
    obtain ⟨_, hA⟩ := matches_cat_skip (by decide) hA
    obtain ⟨w1, c2, hc2, hw1ne, _, hA⟩ := matches_cat_teamG hA
    obtain ⟨_, hA⟩ := matches_cat_skip (by decide) hA
    obtain ⟨d2, c3, hc3, hd2ne, hd2dig, _, hA⟩ := matches_cat_dG hA
    obtain ⟨_, hA⟩ := matches_cat_skip (by decide) hA
    obtain ⟨_, hA⟩ := matches_cat_skip (by decide) hA
    obtain ⟨d3, c4, hc4, hd3ne, hd3dig, _, hA⟩ := matches_cat_dG hA
    have hc5 : c4 = [] := (matches_eps_inv hA).2
    subst hc5; subst hc4; subst hc3; subst hc2
    exact Or.inl ⟨w1, d2, d3, by simp, hw1ne, hd2ne, hd2dig, hd3ne, hd3dig⟩
  · obtain ⟨w4, c2, hc2, hw4ne, _, hB⟩ := matches_cat_teamG hB
    obtain ⟨_, hB⟩ := matches_cat_skip (by decide) hB
    obtain ⟨_, hB⟩ := matches_cat_skip (by decide) hB
    obtain ⟨_, hB⟩ := matches_cat_skip (by decide) hB
    obtain ⟨_, hB⟩ := matches_cat_skip (by decide) hB
    obtain ⟨_, hB⟩ := matches_cat_skip (by decide) hB
    obtain ⟨d5, c3, hc3, hd5ne, hd5dig, _, hB⟩ := matches_cat_dG hB
    obtain ⟨_, hB⟩ := matches_cat_skip (by decide) hB
    obtain ⟨_, hB⟩ := matches_cat_skip (by decide) hB
    obtain ⟨d6, c4, hc4, hd6ne, hd6dig, _, hB⟩ := matches_cat_dG hB
    have hc5 : c4 = [] := (matches_eps_inv hB).2
    subst hc5; subst hc4; subst hc3; subst hc2
    exact Or.inr ⟨w4, d5, d6, by simp, hw4ne, hd5ne, hd5dig, hd6ne, hd6dig⟩

/-! ## Totality of the handlers and of the whole pass -/

/-- A non-empty list is not `isEmpty`. -/
theorem isEmpty_false_of_ne {v : List Char} (h : v ≠ []) : v.isEmpty = false := by
  cases v with
  | nil => exact absurd rfl h
  | cons _ _ => rfl

/-- `int()` succeeds on every non-empty all-digit capture. -/
theorem pyInt_isSome {v : List Char} (h1 : v ≠ []) (h2 : v.all Char.isDigit = true) :
    pyInt v = some (digitsToNat v) := by
  simp [pyInt, h2, isEmpty_false_of_ne h1]

/-- The pattern-1 branch cannot raise on captures of a pattern-1 match. -/
theorem handle1_isSome {v : List Char} {caps : Caps} (h : Matches pattern1 v caps) :
    (handle1 caps).isSome = true := by
  rcases pattern1_caps h with
    ⟨d1, w2, d3, hc, hne1, hd1, hne2, hne3, hd3⟩ |
    ⟨w4, d5, d6, hc, hne4, hne5, hd5, hne6, hd6⟩
  · subst hc
    simp [handle1, capTruthy, lookupCap, pyInt_isSome hne1 hd1, pyInt_isSome hne3 hd3,
      isEmpty_false_of_ne hne1]
  · subst hc
    simp [handle1, capTruthy, lookupCap, pyInt_isSome hne5 hd5, pyInt_isSome hne6 hd6]

/-- The pattern-2 branch cannot raise on captures of a pattern-2 match. -/
theorem handle2_isSome {v : List Char} {caps : Caps} (h : Matches pattern2 v caps) :
    (handle2 caps).isSome = true := by
  rcases pattern2_caps h with
    ⟨w1, d2, d3, hc, hne1, hne2, hd2, hne3, hd3⟩ |
    ⟨d4, d5, w6, hc, hne4, hd4, hne5, hd5, hne6⟩
  · subst hc
    simp [handle2, capTruthy, lookupCap, pyInt_isSome hne2 hd2, pyInt_isSome hne3 hd3,
      isEmpty_false_of_ne hne1]
  · subst hc
    simp [handle2, capTruthy, lookupCap, pyInt_isSome hne4 hd4, pyInt_isSome hne5 hd5]

/-- The pattern-3 branch cannot raise on captures of a pattern-3 match. -/
theorem handle3_isSome {v : List Char} {caps : Caps} (h : Matches pattern3 v caps) :
    (handle3 caps).isSome = true := by
  obtain ⟨w1, d2, d3, hc, hne1, hne2, hd2, hne3, hd3⟩ := pattern3_caps h
  subst hc
  simp [handle3, lookupCap, pyInt_isSome hne2 hd2, pyInt_isSome hne3 hd3]

/-- The pattern-4 branch cannot raise on captures of a pattern-4 match. -/
theorem handle4_isSome {v : List Char} {caps : Caps} (text : List Char)
    (h : Matches pattern4 v caps) : (handle4 caps text).isSome = true := by
  rcases pattern4_caps h with
    ⟨w1, d2, d3, hc, hne1, hne2, hd2, hne3, hd3⟩ |
    ⟨w4, d5, d6, hc, hne4, hne5, hd5, hne6, hd6⟩
  · subst hc
    simp [handle4, capTruthy, lookupCap, pyInt_isSome hne2 hd2, pyInt_isSome hne3 hd3,
      isEmpty_false_of_ne hne1]
  · subst hc
    simp [handle4, capTruthy, lookupCap, pyInt_isSome hne5 hd5, pyInt_isSome hne6 hd6]

/-- The pattern cascade never raises: every branch entered on a real match
completes. -/
theorem runScorePatterns_isSome (text : List Char) :
    (runScorePatterns text).isSome = true := by
  unfold runScorePatterns
  cases h1 : reSearch pattern1 text with
  | some caps =>
    obtain ⟨pre, hm⟩ := reSearch_sound _ _ _ h1
    have h := handle1_isSome hm
    cases hh : handle1 caps with
    | none => rw [hh] at h; simp at h
    | some si => simp [hh]
  | none =>
    cases h2 : reSearch pattern2 text with
    | some caps =>
      obtain ⟨pre, hm⟩ := reSearch_sound _ _ _ h2
      have h := handle2_isSome hm
      cases hh : handle2 caps with
      | none => rw [hh] at h; simp at h
      | some si => simp [hh]
    | none =>
      cases h3 : reSearch pattern3 text with
      | some caps =>
        obtain ⟨pre, hm⟩ := reSearch_sound _ _ _ h3
        have h := handle3_isSome hm
        cases hh : handle3 caps with
        | none => rw [hh] at h; simp at h
        | some si => simp [hh]
      | none =>
        cases h4 : reSearch pattern4 text with
        | some caps =>
          obtain ⟨pre, hm⟩ := reSearch_sound _ _ _ h4
          have h := handle4_isSome text hm
          cases hh : handle4 caps text with
          | none => rw [hh] at h; simp at h
          | some si => simp [hh]
        | none => rfl

/-- The body of the `if content:` block never raises. -/
theorem processText_isSome (text : List Char) : (processText text).isSome = true := by
  unfold processText
  have h := runScorePatterns_isSome text
  cases hr : runScorePatterns text with
  | none => rw [hr] at h; simp at h
  | some r =>
    cases r with
    | some si => simp
    | none => simp

/-- Processing a single article never raises. -/
theorem extractOne_isSome (a : Article) : (extractOne a).isSome = true := by
  unfold extractOne
  cases ht : articleText a with
  | none => rfl
  | some text =>
    have h := processText_isSome text
    cases hp : processText text with
    | none => rw [hp] at h; simp at h
    | some e => simp [hp]

/-! ## Structure of the per-article extraction state -/

/-- Case split on `processText`: either no pattern matched and the state
carries the fallback inferences with no score, or some pattern matched and
the state carries the pattern-derived score, result and opponent. -/
theorem processText_cases {text : List Char} {e : Extraction}
    (h : processText text = some e) :
    (runScorePatterns text = some none ∧ e.score = none ∧
      e.result = inferResultFromKeywords text ∧ e.opponent = fallbackOpponent text) ∨
    (∃ si, runScorePatterns text = some (some si) ∧
      e.opponent = some (normalize_team_name si.opponent_raw) ∧
      e.score = some (scoreString si.spurs_score
        (some (normalize_team_name si.opponent_raw)) si.opponent_score) ∧
      e.result = some (if si.spurs_score > si.opponent_score then "Win" else "Loss")) := by
  unfold processText at h
  cases hr : runScorePatterns text with
  | none => rw [hr] at h; exact absurd h (by simp)
  | some r =>
    rw [hr] at h
    cases r with
    | none =>
      injection h with h2
      subst h2
      exact Or.inl ⟨rfl, rfl, rfl, rfl⟩
    | some si =>
      injection h with h2
      subst h2
      exact Or.inr ⟨si, rfl, rfl, rfl, rfl⟩

/-- The data of `"Spurs " ++ t`. -/
theorem append_spurs_data (t : String) :
    ("Spurs " ++ t).data = 'S' :: 'p' :: 'u' :: 'r' :: 's' :: ' ' :: t.data := by
  cases t with
  | mk d => rfl

/-- A built score string is never empty. -/
theorem scoreString_ne_empty (ss os : Nat) (opp : Option String) :
    scoreString ss opp os ≠ "" := by
  unfold scoreString
  intro h
  have h2 := congrArg String.data h
  rw [append_spurs_data] at h2
  simp at h2

/-- A built score string is never the "Score not found" sentinel. -/
theorem scoreString_ne_notfound (ss os : Nat) (opp : Option String) :
    scoreString ss opp os ≠ "Score not found" := by
  unfold scoreString
  intro h
  have h2 := congrArg String.data h
  rw [append_spurs_data] at h2
  have h3 : ("Score not found" : String).data =
      ['S', 'c', 'o', 'r', 'e', ' ', 'n', 'o', 't', ' ', 'f', 'o', 'u', 'n', 'd'] := rfl
  rw [h3] at h2
  simp only [List.cons.injEq] at h2
  exact absurd h2.2.1 (by decide)

/-- `x if x else d` on a known non-empty string. -/
theorem pyOrElse_some_ne {s : String} (d : String) (h : s ≠ "") :
    pyOrElse (some s) d = s := by
  simp [pyOrElse, h]

/-- Unfolding `extractOne` on a non-recap or empty-content article. -/
theorem extractOne_eq_skip (a : Article) (ht : articleText a = none) :
    extractOne a = some none := by
  unfold extractOne
  rw [ht]

/-- Unfolding `extractOne` when the text processes to an extraction
state: the emission gate of line 500 decides. -/
theorem extractOne_eq_gate (a : Article) {t : List Char} {e : Extraction}
    (ht : articleText a = some t) (hp : processText t = some e) :
    extractOne a =
      some (if pyTruthy e.result && pyTruthy e.score then some (assembleGR a e)
            else none) := by
  unfold extractOne
  rw [ht]
  simp only [hp]

/-- Every emitted record comes from the score-pattern path: its result is
the literal "Win"/"Loss" comparison and its score a built score string. -/
theorem extractOne_emitted {a : Article} {gr : GameResult}
    (h : extractOne a = some (some gr)) :
    (gr.result = "Win" ∨ gr.result = "Loss") ∧
    (∃ ss opp os, gr.score = scoreString ss opp os) ∧
    gr.score ≠ "Score not found" := by
  cases ht : articleText a with
  | none =>
    rw [extractOne_eq_skip a ht] at h
    exact absurd h (by simp)
  | some text =>
    have hps := processText_isSome text
    cases hp : processText text with
    | none => rw [hp] at hps; simp at hps
    | some e =>
      rw [extractOne_eq_gate a ht hp] at h
      rcases processText_cases hp with ⟨_, hsc, _, _⟩ | ⟨si, _, _, hsc, hres⟩
      · rw [hsc] at h
        simp [pyTruthy] at h
      · have hne : scoreString si.spurs_score
            (some (normalize_team_name si.opponent_raw)) si.opponent_score ≠ "" :=
          scoreString_ne_empty _ _ _
        have hcond : (pyTruthy e.result && pyTruthy e.score) = true := by
          rw [hsc, hres]
          by_cases hw : si.spurs_score > si.opponent_score
          · simp [pyTruthy, hw, hne]
          · simp [pyTruthy, hw, hne]
        rw [if_pos hcond] at h
        injection h with h2
        injection h2 with h3
        subst h3
        refine ⟨?_, ⟨si.spurs_score, some (normalize_team_name si.opponent_raw),
          si.opponent_score, ?_⟩, ?_⟩
        · show pyOrElse e.result "Unknown" = "Win" ∨ pyOrElse e.result "Unknown" = "Loss"
          rw [hres]
          by_cases hw : si.spurs_score > si.opponent_score
          · left
            simp only [hw, if_true]
            exact pyOrElse_some_ne _ (by decide)
          · right
            simp only [hw, if_false]
            exact pyOrElse_some_ne _ (by decide)
        · show pyOrElse e.score "Score not found" = _
          rw [hsc]
          exact pyOrElse_some_ne _ hne
        · show pyOrElse e.score "Score not found" ≠ "Score not found"
          rw [hsc, pyOrElse_some_ne _ hne]
          exact scoreString_ne_notfound _ _ _

/-- Unfolding `extract_game_results` on a cons cell when neither side
raises. -/
theorem extract_cons_eq {a : Article} {rest : List Article} {r : Option GameResult}
    {rs : List GameResult} (h1 : extractOne a = some r)
    (h2 : extract_game_results rest = some rs) :
    extract_game_results (a :: rest) =
      some (match r with
            | some gr => gr :: rs
            | none => rs) := by
  unfold extract_game_results
  simp only [h1, h2]
  cases r <;> rfl

/-- A raised exception in the tail aborts the whole pass. -/
theorem extract_cons_eq_none_rest {a : Article} {rest : List Article}
    (h2 : extract_game_results rest = none) :
    extract_game_results (a :: rest) = none := by
  unfold extract_game_results
  rw [h2]
  cases extractOne a <;> rfl

/-! ## The claims -/

/-- C1 counterexample: for the article "Spurs lose" / "Spurs lose to the
Jazz", a result ("Loss") and an opponent ("Jazz") are recovered by the
fallback path while no score pattern matches, yet no `GameResult` is
emitted — refuting the claim that recovering at least one of result or
score suffices for emission. -/
theorem c1_counterexample :
    isRecap artKeywordOnly.title = true ∧
    articleText artKeywordOnly = some artKeywordOnlyText ∧
    processText artKeywordOnlyText =
      some ⟨some "Jazz", none, some "Loss", none⟩ ∧
    extract_game_results [artKeywordOnly] = some [] := by
  refine ⟨by decide, by decide, by decide, by decide⟩

/-- C1 (amended): for every recap-classified article with non-empty text,
a `GameResult` is emitted exactly when a score was recovered (the line-500
gate `if result and score:` requires both, and a recovered score forces a
result, so a keyword-only result — like an opponent-only recovery — is
insufficient and the article is dropped). -/
theorem c1_emission_gate (a : Article) (t : List Char) (e : Extraction)
    (ht : articleText a = some t) (hp : processText t = some e) :
    (∃ gr, extractOne a = some (some gr)) ↔ pyTruthy e.score = true := by
  rw [extractOne_eq_gate a ht hp]
  constructor
  · rintro ⟨gr, hgr⟩
    by_cases hc : (pyTruthy e.result && pyTruthy e.score) = true
    · exact (Bool.and_eq_true_iff.mp hc).2
    · rw [if_neg hc] at hgr
      simp at hgr
  · intro hsc
    rcases processText_cases hp with ⟨_, hscn, _, _⟩ | ⟨si, _, _, hsceq, hres⟩
    · rw [hscn] at hsc
      simp [pyTruthy] at hsc
    · have hrt : pyTruthy e.result = true := by
        rw [hres]
        by_cases hw : si.spurs_score > si.opponent_score
        · simp [pyTruthy, hw]
        · simp [pyTruthy, hw]
      rw [if_pos (by rw [hrt, hsc]; rfl)]
      exact ⟨assembleGR a e, rfl⟩

/-- C1 witness: the scoring article `artScore` is emitted. -/
theorem c1_witness : ∃ gr, extractOne artScore = some (some gr) :=
  (c1_emission_gate artScore artScoreText artScoreExtraction
    (by decide) (by decide)).mpr (by decide)

/-- C2 counterexample: "on the road against the Lakers" matches no
location phrase (the road phrase needs a played/playing/game prefix), so
the resolver yields no location — assembled as "Unknown", not the claimed
"Away"; and a text containing "hosting the Lakers" can still resolve Away
when an earlier away phrase matches first. -/
theorem c2_counterexample :
    resolveLocation ("on the road against the Lakers").toList none = none ∧
    resolveLocation ("on the road against the Lakers").toList none ≠ some "Away" ∧
    pyOrElse (resolveLocation ("on the road against the Lakers").toList none)
      "Unknown" = "Unknown" ∧
    resolveLocation ("away game hosting the Lakers").toList none = some "Away" := by
  refine ⟨by decide, by decide, by decide, by decide⟩

/-- C2 (amended): the resolver returns "Home" for the text
"hosting the Lakers"; for "on the road against the Lakers" alone no
phrase matches and (with no opponent) the location stays unresolved
("Unknown" after assembly) — Away needs a played/playing/game prefix as
in "playing on the road against the Lakers"; and whenever no location
phrase matches and no opponent is known, the resolver yields no
location. -/
theorem c2_location_resolution :
    resolveLocation ("hosting the Lakers").toList none = some "Home" ∧
    resolveLocation ("on the road against the Lakers").toList none = none ∧
    resolveLocation ("playing on the road against the Lakers").toList none =
      some "Away" ∧
    ∀ text : List Char,
      location_patterns.findSome? (fun p => reSearch p text) = none →
      resolveLocation text none = none := by
  refine ⟨by decide, by decide, by decide, ?_⟩
  intro text hnone
  unfold resolveLocation
  rw [hnone]

/-- C2 witness: a text matching no location phrase resolves to no
location. -/
theorem c2_witness : resolveLocation ("preseason notes").toList none = none :=
  c2_location_resolution.2.2.2 _ (by decide)

/-- C3: in the pattern-4 branch, when the text contains neither
"spurs win" nor "spurs loss", the first captured number goes to the team
named first in the matched fragment — the Spurs in the direct branch
(groups 1-3), the opponent in the mirrored branch (groups 4-6). -/
theorem c3_pattern4_first_number (caps : Caps) (text : List Char)
    (hwin : lmemLower "spurs win" text = false)
    (hloss : lmemLower "spurs loss" text = false) :
    (∀ g1 d2 d3 n2 n3,
      lookupCap 1 caps = some g1 → g1 ≠ [] →
      lookupCap 2 caps = some d2 → pyInt d2 = some n2 →
      lookupCap 3 caps = some d3 → pyInt d3 = some n3 →
      handle4 caps text = some ⟨n2, n3, String.mk (stripChars g1)⟩) ∧
    (∀ g4 d5 d6 n5 n6,
      lookupCap 1 caps = none →
      lookupCap 4 caps = some g4 →
      lookupCap 5 caps = some d5 → pyInt d5 = some n5 →
      lookupCap 6 caps = some d6 → pyInt d6 = some n6 →
      handle4 caps text = some ⟨n6, n5, String.mk (stripChars g4)⟩) := by
  constructor
  · intro g1 d2 d3 n2 n3 h1 hne h2 hp2 h3 hp3
    simp [handle4, capTruthy, h1, h2, h3, hp2, hp3, isEmpty_false_of_ne hne,
      hwin, hloss]
  · intro g4 d5 d6 n5 n6 h1 h4 h5 hp5 h6 hp6
    simp [handle4, capTruthy, h1, h4, h5, h6, hp5, hp6, hwin, hloss]

/-- C3 witness: both branches at concrete captures with no win/loss
phrase: direct branch gives the first number to the Spurs, mirrored
branch gives it to the opponent. -/
theorem c3_witness :
    handle4 [(1, "Jazz".toList), (2, "100".toList), (3, "90".toList)]
      ("Spurs vs Jazz 100-90").toList =
      some ⟨100, 90, "Jazz"⟩ ∧
    handle4 [(4, "Jazz".toList), (5, "100".toList), (6, "90".toList)]
      ("Jazz vs Spurs 100-90").toList =
      some ⟨90, 100, "Jazz"⟩ := by
  constructor
  · exact (c3_pattern4_first_number
      [(1, "Jazz".toList), (2, "100".toList), (3, "90".toList)]
      ("Spurs vs Jazz 100-90").toList (by decide) (by decide)).1
      ("Jazz".toList) ("100".toList) ("90".toList) 100 90
      (by decide) (by decide) (by decide) (by decide) (by decide) (by decide)
  · exact (c3_pattern4_first_number
      [(4, "Jazz".toList), (5, "100".toList), (6, "90".toList)]
      ("Jazz vs Spurs 100-90").toList (by decide) (by decide)).2
      ("Jazz".toList) ("100".toList) ("90".toList) 100 90
      (by decide) (by decide) (by decide) (by decide) (by decide) (by decide)

/-- C4: whenever both scores are recovered, the result is "Win" if and
only if the own score exceeds the opponent score, and "Loss" otherwise —
in particular ties are classified as "Loss". -/
theorem c4_result_from_scores (ss os : Nat) (opp : Option String)
    (r0 : Option String) :
    ((applyScores (some ss) (some os) opp r0).2 = some "Win" ↔ ss > os) ∧
    (¬ ss > os → (applyScores (some ss) (some os) opp r0).2 = some "Loss") ∧
    (ss = os → (applyScores (some ss) (some os) opp r0).2 = some "Loss") := by
  refine ⟨?_, ?_, ?_⟩
  · by_cases hw : ss > os
    · simp [applyScores, hw]
    · simp [applyScores, hw]
  · intro hw
    simp [applyScores, hw]
  · intro he
    have hw : ¬ ss > os := by omega
    simp [applyScores, hw]

/-- C4 witness: the tie 100-100 is classified as "Loss". -/
theorem c4_witness : (applyScores (some 100) (some 100) none none).2 = some "Loss" :=
  (c4_result_from_scores 100 100 none none).2.2 rfl

/-- C5: the four score patterns are tried in the fixed order 1-4 with
early termination: whenever pattern 1 matches, the outcome comes from
pattern 1's branch; each later pattern is consulted only when all earlier
ones failed; when none matches the cascade reports no score. -/
theorem c5_pattern_priority (text : List Char) :
    ((reSearch pattern1 text).isSome = true →
      runScorePatterns text =
        (reSearch pattern1 text).bind (fun c => (handle1 c).map some)) ∧
    (reSearch pattern1 text = none → (reSearch pattern2 text).isSome = true →
      runScorePatterns text =
        (reSearch pattern2 text).bind (fun c => (handle2 c).map some)) ∧
    (reSearch pattern1 text = none → reSearch pattern2 text = none →
      (reSearch pattern3 text).isSome = true →
      runScorePatterns text =
        (reSearch pattern3 text).bind (fun c => (handle3 c).map some)) ∧
    (reSearch pattern1 text = none → reSearch pattern2 text = none →
      reSearch pattern3 text = none → (reSearch pattern4 text).isSome = true →
      runScorePatterns text =
        (reSearch pattern4 text).bind (fun c => (handle4 c text).map some)) ∧
    (reSearch pattern1 text = none → reSearch pattern2 text = none →
      reSearch pattern3 text = none → reSearch pattern4 text = none →
      runScorePatterns text = some none) := by
  refine ⟨?_, ?_, ?_, ?_, ?_⟩
  · intro h1
    cases hs : reSearch pattern1 text with
    | none => rw [hs] at h1; simp at h1
    | some caps => unfold runScorePatterns; rw [hs]; rfl
  · intro h1 h2
    cases hs : reSearch pattern2 text with
    | none => rw [hs] at h2; simp at h2
    | some caps => unfold runScorePatterns; rw [h1, hs]; rfl
  · intro h1 h2 h3
    cases hs : reSearch pattern3 text with
    | none => rw [hs] at h3; simp at h3
    | some caps => unfold runScorePatterns; rw [h1, h2, hs]; rfl
  · intro h1 h2 h3 h4
    cases hs : reSearch pattern4 text with
    | none => rw [hs] at h4; simp at h4
    | some caps => unfold runScorePatterns; rw [h1, h2, h3, hs]; rfl
  · intro h1 h2 h3 h4
    unfold runScorePatterns
    rw [h1, h2, h3, h4]

/-- C5 witness: on a text where patterns 1 and 2 both match, the cascade
reports pattern 1's extraction (Spurs 120, opponent "Lakers" 110), not
pattern 2's. -/
theorem c5_witness :
    (reSearch pattern1 bothPatternsText).isSome = true ∧
    (reSearch pattern2 bothPatternsText).isSome = true ∧
    runScorePatterns bothPatternsText = some (some ⟨120, 110, "Lakers"⟩) := by
  refine ⟨by decide, by decide, ?_⟩
  rw [(c5_pattern_priority bothPatternsText).1 (by decide)]
  decide

/-- C6 counterexample: the empty string matches no team and no city, yet
the normalizer returns the "Unknown" sentinel rather than the raw token
unchanged. -/
theorem c6_counterexample :
    nba_teams.all (fun t => !teamNameMatch t "") = true ∧
    team_cities.all (fun ct => !teamNameMatch ct.1 "") = true ∧
    normalize_team_name "" = "Unknown" ∧ ("Unknown" : String) ≠ "" := by
  refine ⟨by decide, by decide, by decide, by decide⟩

/-- C6 (amended): for every NON-EMPTY raw token matching no canonical
team name (by equality or substring) and no city key, the normalizer
returns the raw token unchanged (the empty string instead hits the
`if not raw_name` guard and returns "Unknown"); the function is total. -/
theorem c6_normalize_unmatched (raw : String) (hne : raw ≠ "")
    (hteams : ∀ t ∈ nba_teams, teamNameMatch t raw = false)
    (hcities : ∀ ct ∈ team_cities, teamNameMatch ct.1 raw = false) :
    normalize_team_name raw = raw := by
  unfold normalize_team_name
  rw [if_neg hne]
  have h1 : nba_teams.find? (fun team => teamNameMatch team raw) = none :=
    List.find?_eq_none.mpr (fun x hx => by simp [hteams x hx])
  have h2 : team_cities.find? (fun ct => teamNameMatch ct.1 raw) = none :=
    List.find?_eq_none.mpr (fun x hx => by simp [hcities x hx])
  rw [h1, h2]

/-- C6 witness: "Foo" matches nothing and is returned unchanged. -/
theorem c6_witness : normalize_team_name "Foo" = "Foo" :=
  c6_normalize_unmatched "Foo" (by decide) (by decide) (by decide)

/-- C7: "Los Angeles Clippers fans" resolves by substring containment of
the canonical name to "Clippers", and the bare ambiguous city
"Los Angeles" defaults to the first team of its city list, "Clippers". -/
theorem c7_los_angeles_normalization :
    normalize_team_name "Los Angeles Clippers fans" = "Clippers" ∧
    normalize_team_name "Los Angeles" = "Clippers" := by
  refine ⟨by decide, by decide⟩

/-- C8: the extraction pass is total — for every article list it
completes without raising: every pattern branch entered on a real match
finds its groups present and its digit captures parse. -/
theorem c8_extraction_total (articles : List Article) :
    (extract_game_results articles).isSome = true := by
  induction articles with
  | nil => rfl
  | cons a rest ih =>
    have h1 := extractOne_isSome a
    cases he : extractOne a with
    | none => rw [he] at h1; simp at h1
    | some r =>
      cases hr : extract_game_results rest with
      | none => rw [hr] at ih; simp at ih
      | some rs =>
        rw [extract_cons_eq he hr]
        rfl

/-- C9: every emitted `GameResult` has result "Win" or "Loss" (never
"Unknown") and a score of the built form "Spurs X, Opponent Y" (never the
"Score not found" sentinel): only score-pattern articles are emitted, so
the keyword-fallback path alone never produces an output record. -/
theorem c9_emitted_records_invariant :
    ∀ (articles : List Article) (rs : List GameResult) (gr : GameResult),
      extract_game_results articles = some rs → gr ∈ rs →
      (gr.result = "Win" ∨ gr.result = "Loss") ∧
      (∃ ss opp os, gr.score = scoreString ss opp os) ∧
      gr.score ≠ "Score not found" := by
  intro articles
  induction articles with
  | nil =>
    intro rs gr h hmem
    injection h with h2
    rw [← h2] at hmem
    simp at hmem
  | cons a rest ih =>
    intro rs gr h hmem
    cases he : extractOne a with
    | none =>
      have h1 := extractOne_isSome a
      rw [he] at h1
      simp at h1
    | some r =>
      cases hr : extract_game_results rest with
      | none =>
        rw [extract_cons_eq_none_rest hr] at h
        exact absurd h (by simp)
      | some rs2 =>
        rw [extract_cons_eq he hr] at h
        injection h with h2
        cases r with
        | some gr0 =>
          rw [← h2] at hmem
          rcases List.mem_cons.mp hmem with heq | hmem2
          · subst heq
            exact extractOne_emitted he
          · exact ih rs2 gr hr hmem2
        | none =>
          rw [← h2] at hmem
          exact ih rs2 gr hr hmem

/-- C9 witness: the record emitted for the "Final Score: Clippers
122-117 Spurs" article satisfies the invariant. -/
theorem c9_witness :
    (grScoreB.result = "Win" ∨ grScoreB.result = "Loss") ∧
    (∃ ss opp os, grScoreB.score = scoreString ss opp os) ∧
    grScoreB.score ≠ "Score not found" :=
  c9_emitted_records_invariant [artScoreB] [grScoreB] grScoreB (by decide)
    (List.mem_singleton.mpr rfl)

/-- C10: when the fallback opponent resolution reaches the Los Angeles
city branch, the preceding team-name scan has already ruled out every
team name — so neither "Clippers" nor "Lakers" occurs in the text, the
count-based and single-mention branches are unreachable, and the branch
yields the default "Clippers". -/
theorem c10_la_city_branch (text : List Char)
    (hteam : teamScanOpponent text = none)
    (hcity : team_cities.find? (fun ct => ct.1 ≠ "San Antonio" && lmem ct.1 text) =
      some ("Los Angeles", CityEntry.multi "Clippers" ["Lakers"])) :
    lmem "Clippers" text = false ∧ lmem "Lakers" text = false ∧
    cityScanOpponent text = some "Clippers" := by
  have hall := List.find?_eq_none.mp hteam
  have hclip : lmem "Clippers" text = false := by
    have h1 := hall "Clippers" (by decide)
    simp at h1
    exact h1
  have hlak : lmem "Lakers" text = false := by
    have h1 := hall "Lakers" (by decide)
    simp at h1
    exact h1
  refine ⟨hclip, hlak, ?_⟩
  unfold cityScanOpponent
  rw [hcity]
  simp [hclip, hlak]

/-- C10 witness: on the text "los angeles" the team scan fails, the city
scan reaches Los Angeles, and the branch yields "Clippers". -/
theorem c10_witness : cityScanOpponent ("los angeles").toList = some "Clippers" :=
  (c10_la_city_branch _ (by decide) (by decide)).2.2

end PTR
